import Mathlib

/-!
Verification of the payment and discount services of the medusa repository.

The definitions below are shallow embeddings of:
 - PaymentProviderService (services/payment-provider): refundPayment,
   refundFromPayment, retrieveProvider, createSession, createSessionNew,
   saveSession, authorizePayment, capturePayment;
 - StripeBase (medusa-payment-stripe/src/helpers/stripe-base.js): getStatus,
   capturePayment;
 - DiscountConditionService: resolveConditionType_, upsertCondition, remove.

Modelling conventions: JavaScript numbers holding money amounts are embedded
as Int; nullable or undefined values as Option; thrown MedusaError values as
the error side of Except; opaque provider data blobs as association lists of
strings; the database repositories as Lean lists passed in and returned.
External collaborators (the Stripe API, provider adapters, the dependency
injection container) enter as explicit function parameters whose outcome is
quantified in the theorems.
-/

/-- Opaque provider specific data blob (JSON like record). -/
abbrev PData := List (String × String)

/-- The error kinds raised via MedusaError.Types in the source. -/
inductive MedusaErrorType where
  | NOT_FOUND
  | NOT_ALLOWED
  | INVALID_DATA
  | INVALID_ARGUMENT
  | DUPLICATE_ERROR
  deriving Repr, DecidableEq

/-- A thrown MedusaError: an error kind together with its message. -/
structure MedusaError where
  errType : MedusaErrorType
  message : String
  deriving Repr, DecidableEq

/-- PaymentSessionStatus from the models. -/
inductive PaymentSessionStatus where
  | PENDING
  | REQUIRES_MORE
  | AUTHORIZED
  | CANCELED
  | ERROR
  deriving Repr, DecidableEq

/-- A Stripe payment intent, reduced to the fields the embedded code reads. -/
structure PaymentIntent where
  id : String
  status : String
  deriving Repr, DecidableEq

/-- A Stripe API error as observed by StripeBase.capturePayment: an error
code together with the payment intent attached to the error. -/
structure StripeError where
  code : String
  payment_intent : PaymentIntent
  deriving Repr, DecidableEq

/-- StripeBase.getStatus: the switch mapping a retrieved payment intent
status string to a PaymentSessionStatus. The network retrieval of the
intent is external; the mapping below is the whole switch statement. -/
def stripeGetStatus (paymentIntent : PaymentIntent) : PaymentSessionStatus :=
  if paymentIntent.status = "requires_payment_method"
      ∨ paymentIntent.status = "requires_confirmation"
      ∨ paymentIntent.status = "processing" then
    PaymentSessionStatus.PENDING
  else if paymentIntent.status = "requires_action" then
    PaymentSessionStatus.REQUIRES_MORE
  else if paymentIntent.status = "canceled" then
    PaymentSessionStatus.CANCELED
  else if paymentIntent.status = "requires_capture"
      ∨ paymentIntent.status = "succeeded" then
    PaymentSessionStatus.AUTHORIZED
  else
    PaymentSessionStatus.PENDING

/-- StripeBase.capturePayment: the stripe paymentIntents capture call is
external, so its outcome is the argument; on an error whose code is
payment_intent_unexpected_state with an intent in status succeeded the
adapter returns that intent as a success, every other error is rethrown. -/
def stripeCapturePayment (apiResult : Except StripeError PaymentIntent) :
    Except StripeError PaymentIntent :=
  match apiResult with
  | Except.ok intent => Except.ok intent
  | Except.error e =>
    if e.code = "payment_intent_unexpected_state" then
      if e.payment_intent.status = "succeeded" then
        Except.ok e.payment_intent
      else
        Except.error e
    else
      Except.error e

/-- A Payment record, reduced to the fields the embedded methods touch. -/
structure Payment where
  id : String
  order_id : String
  provider_id : String
  amount : Int
  amount_refunded : Int
  captured_at : Option String
  data : PData
  deriving Repr, DecidableEq

/-- A payment intent persisted as the payment data blob. -/
def intentData (i : PaymentIntent) : PData :=
  [("id", i.id), ("status", i.status)]

/-- PaymentProviderService.capturePayment after the payment has been
retrieved: the provider adapter call outcome is the argument; on success
the returned data is persisted and captured_at is stamped with the current
time, on failure the error propagates unchanged. -/
def capturePaymentOrch {ε : Type} (adapterResult : Except ε PData)
    (payment : Payment) (now : String) : Except ε Payment :=
  match adapterResult with
  | Except.error e => Except.error e
  | Except.ok d =>
    Except.ok { payment with data := d, captured_at := some now }

/-- The orchestrator capturePayment composed with the Stripe adapter
capturePayment for a given Stripe API outcome. -/
def captureViaStripe (apiResult : Except StripeError PaymentIntent)
    (payment : Payment) (now : String) : Except StripeError Payment :=
  capturePaymentOrch ((stripeCapturePayment apiResult).map intentData) payment now

/-- C8: stripeGetStatus is a total mapping: requires_capture and succeeded
map to AUTHORIZED, requires_action to REQUIRES_MORE, canceled to CANCELED,
and every other status string, including the three named PENDING cases and
any unrecognized status, maps to PENDING; no status raises. -/
theorem stripeGetStatus_total_mapping (i : PaymentIntent) :
    (i.status = "requires_capture" → stripeGetStatus i = PaymentSessionStatus.AUTHORIZED)
    ∧ (i.status = "succeeded" → stripeGetStatus i = PaymentSessionStatus.AUTHORIZED)
    ∧ (i.status = "requires_action" → stripeGetStatus i = PaymentSessionStatus.REQUIRES_MORE)
    ∧ (i.status = "canceled" → stripeGetStatus i = PaymentSessionStatus.CANCELED)
    ∧ (i.status ≠ "requires_action" → i.status ≠ "canceled" →
        i.status ≠ "requires_capture" → i.status ≠ "succeeded" →
        stripeGetStatus i = PaymentSessionStatus.PENDING) := by
  unfold stripeGetStatus
  refine ⟨?_, ?_, ?_, ?_, ?_⟩ <;> intro h
  · simp [h]
  · simp [h]
  · simp [h]
  · simp [h]
  · intro h2 h3 h4
    by_cases hp : i.status = "requires_payment_method"
        ∨ i.status = "requires_confirmation" ∨ i.status = "processing"
    · simp [hp]
    · simp [hp, h, h2, h3, h4]

/-- Witness for C8 at a concrete unrecognized status. -/
theorem stripeGetStatus_total_mapping_witness :
    stripeGetStatus { id := "pi_1", status := "some_unknown_status" }
      = PaymentSessionStatus.PENDING := by
  have h := stripeGetStatus_total_mapping { id := "pi_1", status := "some_unknown_status" }
  exact h.2.2.2.2 (by decide) (by decide) (by decide) (by decide)

/-- C6: capture treats an adapter report of already succeeded as success:
when the Stripe capture call fails with code payment_intent_unexpected_state
and the intent status is succeeded, the composed capture persists the intent
as payment data and stamps captured_at; any other failure propagates
unchanged, and an adapter success is persisted with captured_at stamped. -/
theorem capturePayment_tolerates_already_succeeded
    (p : Payment) (e : StripeError) (now : String) :
    (captureViaStripe (Except.error e) p now =
      if e.code = "payment_intent_unexpected_state"
          ∧ e.payment_intent.status = "succeeded" then
        Except.ok { p with data := intentData e.payment_intent, captured_at := some now }
      else
        Except.error e)
    ∧ ∀ intent : PaymentIntent,
        captureViaStripe (Except.ok intent) p now =
          Except.ok { p with data := intentData intent, captured_at := some now } := by
  constructor
  · unfold captureViaStripe stripeCapturePayment capturePaymentOrch
    by_cases hc : e.code = "payment_intent_unexpected_state"
    · by_cases hs : e.payment_intent.status = "succeeded"
      · simp [hc, hs, Except.map]
      · simp [hc, hs, Except.map]
    · simp [hc, Except.map]
  · intro intent
    unfold captureViaStripe stripeCapturePayment capturePaymentOrch
    simp [Except.map]

/-- DiscountConditionType from the models. -/
inductive DiscountConditionType where
  | products
  | product_collections
  | product_types
  | product_tags
  | customer_groups
  deriving Repr, DecidableEq

/-- UpsertDiscountConditionInput: a condition upsert payload. Each resource
list is optional and may also be present but empty. -/
structure UpsertDiscountConditionInput where
  id : Option String
  operator : String
  products : Option (List String)
  product_collections : Option (List String)
  product_types : Option (List String)
  product_tags : Option (List String)
  customer_groups : Option (List String)
  deriving Repr, DecidableEq

/-- Truthiness of the JavaScript test data.xs?.length: true exactly when the
optional list is present and non empty. -/
def nonEmptyList : Option (List String) → Bool
  | some (_ :: _) => true
  | _ => false

/-- DiscountConditionService.resolveConditionType_: the switch over the five
resource lists in source order; the first non empty list determines the
condition type, and the payload resolves to none when all five are empty. -/
def resolveConditionType (data : UpsertDiscountConditionInput) :
    Option (DiscountConditionType × List String) :=
  if nonEmptyList data.products then
    some (DiscountConditionType.products, data.products.getD [])
  else if nonEmptyList data.product_collections then
    some (DiscountConditionType.product_collections, data.product_collections.getD [])
  else if nonEmptyList data.product_types then
    some (DiscountConditionType.product_types, data.product_types.getD [])
  else if nonEmptyList data.product_tags then
    some (DiscountConditionType.product_tags, data.product_tags.getD [])
  else if nonEmptyList data.customer_groups then
    some (DiscountConditionType.customer_groups, data.customer_groups.getD [])
  else
    none

/-- The discount retrieved for a new condition, reduced to its rule id. -/
structure DiscountLite where
  id : String
  rule_id : String
  deriving Repr, DecidableEq

/-- The effect of a successful upsertCondition: either the resource
associations of an existing condition were replaced, or a new condition row
was created for the rule of the retrieved discount. -/
inductive UpsertConditionResult where
  | updated (conditionId : String) (ctype : DiscountConditionType)
      (resource_ids : List String)
  | created (rule_id : String) (operator : String)
      (ctype : DiscountConditionType) (resource_ids : List String)
  deriving Repr, DecidableEq

/-- DiscountConditionService.upsertCondition: resolves the condition type
first, raises InvalidData inside the transaction when no list is non empty;
with an id it replaces the resource associations of that condition, without
one it retrieves the discount (lookup passed in as findDiscount, NotFound
when absent) and creates the condition on its rule. The duplicate key path
is a database error translated outside this model. -/
def upsertCondition (findDiscount : String → Option DiscountLite)
    (discountId : String) (data : UpsertDiscountConditionInput) :
    Except MedusaError UpsertConditionResult :=
  match resolveConditionType data with
  | none =>
    Except.error ⟨MedusaErrorType.INVALID_DATA,
      "Missing one of products, collections, tags, types or customer groups in data"⟩
  | some (t, rids) =>
    match data.id with
    | some condId => Except.ok (UpsertConditionResult.updated condId t rids)
    | none =>
      match findDiscount discountId with
      | none =>
        Except.error ⟨MedusaErrorType.NOT_FOUND,
          "Discount with " ++ discountId ++ " was not found"⟩
      | some d =>
        Except.ok (UpsertConditionResult.created d.rule_id data.operator t rids)

/-- A DiscountCondition row, reduced to the fields the service touches. -/
structure DiscountCondition where
  id : String
  discount_rule_id : String
  ctype : DiscountConditionType
  operator : String
  deriving Repr, DecidableEq

/-- DiscountConditionService.remove: finds the condition by id in the store;
when absent it resolves without error leaving the store unchanged, when
present it removes that row. -/
def removeCondition (store : List DiscountCondition) (conditionId : String) :
    Except MedusaError (List DiscountCondition) :=
  match store.find? (fun c => c.id = conditionId) with
  | none => Except.ok store
  | some _ => Except.ok (store.eraseP (fun c => c.id = conditionId))

/-- C7: the resolved condition type is decided by the first non empty list
among products, product collections, product types, product tags, customer
groups, in exactly that priority order, and upsertCondition fails with
InvalidData exactly when none of the five lists is non empty. -/
theorem upsertCondition_priority_and_invalidData
    (findDiscount : String → Option DiscountLite) (discountId : String)
    (d : UpsertDiscountConditionInput) :
    (nonEmptyList d.products = true →
      resolveConditionType d
        = some (DiscountConditionType.products, d.products.getD [])) ∧
    (nonEmptyList d.products = false → nonEmptyList d.product_collections = true →
      resolveConditionType d
        = some (DiscountConditionType.product_collections, d.product_collections.getD [])) ∧
    (nonEmptyList d.products = false → nonEmptyList d.product_collections = false →
      nonEmptyList d.product_types = true →
      resolveConditionType d
        = some (DiscountConditionType.product_types, d.product_types.getD [])) ∧
    (nonEmptyList d.products = false → nonEmptyList d.product_collections = false →
      nonEmptyList d.product_types = false → nonEmptyList d.product_tags = true →
      resolveConditionType d
        = some (DiscountConditionType.product_tags, d.product_tags.getD [])) ∧
    (nonEmptyList d.products = false → nonEmptyList d.product_collections = false →
      nonEmptyList d.product_types = false → nonEmptyList d.product_tags = false →
      nonEmptyList d.customer_groups = true →
      resolveConditionType d
        = some (DiscountConditionType.customer_groups, d.customer_groups.getD [])) ∧
    (resolveConditionType d = none ↔
      nonEmptyList d.products = false ∧ nonEmptyList d.product_collections = false ∧
      nonEmptyList d.product_types = false ∧ nonEmptyList d.product_tags = false ∧
      nonEmptyList d.customer_groups = false) ∧
    ((∃ e, upsertCondition findDiscount discountId d = Except.error e ∧
        e.errType = MedusaErrorType.INVALID_DATA) ↔ resolveConditionType d = none) := by
  refine ⟨?_, ?_, ?_, ?_, ?_, ?_, ?_⟩
  · intro h1
    simp [resolveConditionType, h1]
  · intro h1 h2
    simp [resolveConditionType, h1, h2]
  · intro h1 h2 h3
    simp [resolveConditionType, h1, h2, h3]
  · intro h1 h2 h3 h4
    simp [resolveConditionType, h1, h2, h3, h4]
  · intro h1 h2 h3 h4 h5
    simp [resolveConditionType, h1, h2, h3, h4, h5]
  · constructor
    · intro h
      unfold resolveConditionType at h
      split_ifs at h with p1 p2 p3 p4 p5
      exact ⟨by simpa using p1, by simpa using p2, by simpa using p3,
        by simpa using p4, by simpa using p5⟩
    · rintro ⟨h1, h2, h3, h4, h5⟩
      simp [resolveConditionType, h1, h2, h3, h4, h5]
  · constructor
    · rintro ⟨e, he, ht⟩
      cases hr : resolveConditionType d with
      | none => rfl
      | some tr =>
        exfalso
        obtain ⟨t, rids⟩ := tr
        unfold upsertCondition at he
        rw [hr] at he
        cases hid : d.id with
        | some condId =>
          rw [hid] at he
          simp at he
        | none =>
          rw [hid] at he
          cases hf : findDiscount discountId with
          | none =>
            rw [hf] at he
            simp at he
            rw [← he] at ht
            simp at ht
          | some disc =>
            rw [hf] at he
            simp at he
    · intro h
      refine ⟨⟨MedusaErrorType.INVALID_DATA,
        "Missing one of products, collections, tags, types or customer groups in data"⟩,
        ?_, rfl⟩
      unfold upsertCondition
      rw [h]

/-- Witness for C7: a payload with both product collections and customer
groups set resolves to product collections, and an empty payload makes
upsertCondition fail with InvalidData. -/
theorem upsertCondition_priority_and_invalidData_witness :
    resolveConditionType
      { id := none, operator := "in", products := some [],
        product_collections := some ["col_1"], product_types := none,
        product_tags := none, customer_groups := some ["grp_1"] }
      = some (DiscountConditionType.product_collections, ["col_1"]) ∧
    (∃ e, upsertCondition (fun _ => none) "disc_1"
        { id := none, operator := "in", products := none,
          product_collections := none, product_types := none,
          product_tags := none, customer_groups := none } = Except.error e ∧
      e.errType = MedusaErrorType.INVALID_DATA) := by
  constructor
  · exact (upsertCondition_priority_and_invalidData (fun _ => none) "disc_1" _).2.1
      (by decide) (by decide)
  · exact ((upsertCondition_priority_and_invalidData (fun _ => none) "disc_1" _).2.2.2.2.2.2).mpr
      (by decide)

/-- Helper for C10: after erasing the condition found by id from a store
whose ids are pairwise distinct, no row with that id remains. -/
theorem eraseP_id_not_mem (store : List DiscountCondition) (cid : String)
    (hnd : (store.map DiscountCondition.id).Nodup) :
    ∀ c ∈ store.eraseP (fun c => c.id = cid), c.id ≠ cid := by
  induction store with
  | nil => simp
  | cons a tl ih =>
    simp only [List.map_cons, List.nodup_cons] at hnd
    obtain ⟨ha, htl⟩ := hnd
    by_cases hp : a.id = cid
    · rw [List.eraseP_cons_of_pos (by simp [hp])]
      intro c hc hcc
      exact ha (by rw [hp, ← hcc]; exact List.mem_map_of_mem _ hc)
    · rw [List.eraseP_cons_of_neg (by simp [hp])]
      intro c hc
      rcases List.mem_cons.mp hc with rfl | hc2
      · exact hp
      · exact ih htl c hc2

/-- C10: removeCondition never raises; when no condition with the id exists
the store is returned unchanged, and when the ids in the store are pairwise
distinct the resulting store contains no row with the id while every
remaining row comes from the original store. -/
theorem removeCondition_missing_noop (store : List DiscountCondition) (cid : String) :
    (∃ st, removeCondition store cid = Except.ok st) ∧
    (store.find? (fun c => c.id = cid) = none → removeCondition store cid = Except.ok store) ∧
    ((store.map DiscountCondition.id).Nodup →
      ∀ st, removeCondition store cid = Except.ok st →
        (∀ c ∈ st, c.id ≠ cid) ∧ (∀ c ∈ st, c ∈ store)) := by
  refine ⟨?_, ?_, ?_⟩
  · unfold removeCondition
    cases store.find? (fun c => c.id = cid) with
    | none => exact ⟨store, rfl⟩
    | some c => exact ⟨_, rfl⟩
  · intro h
    unfold removeCondition
    rw [h]
  · intro hnd st hst
    unfold removeCondition at hst
    cases hf : store.find? (fun c => c.id = cid) with
    | none =>
      rw [hf] at hst
      simp at hst
      subst hst
      refine ⟨?_, fun c hc => hc⟩
      intro c hc hcc
      have := List.find?_eq_none.mp hf c hc
      simp [hcc] at this
    | some c0 =>
      rw [hf] at hst
      simp at hst
      subst hst
      exact ⟨eraseP_id_not_mem store cid hnd, fun c hc => List.eraseP_subset _ hc⟩

/-- Witness for C10: removing an absent id resolves without error and leaves
the one row store unchanged; removing the present id empties the store. -/
theorem removeCondition_missing_noop_witness :
    removeCondition [⟨"dc_1", "rule_1", DiscountConditionType.products, "in"⟩] "dc_2"
      = Except.ok [⟨"dc_1", "rule_1", DiscountConditionType.products, "in"⟩] ∧
    (∀ c ∈ ([] : List DiscountCondition), c.id ≠ "dc_1") := by
  constructor
  · exact (removeCondition_missing_noop
      [⟨"dc_1", "rule_1", DiscountConditionType.products, "in"⟩] "dc_2").2.1 (by decide)
  · exact ((removeCondition_missing_noop
      [⟨"dc_1", "rule_1", DiscountConditionType.products, "in"⟩] "dc_1").2.2 (by decide)
      [] rfl).1

/-- A PaymentSession row, reduced to the fields the embedded methods touch.
The row id is generated by the store; newly created rows carry the empty
placeholder id. -/
structure PaymentSession where
  id : String
  cart_id : Option String
  provider_id : String
  status : PaymentSessionStatus
  data : PData
  payment_authorized_at : Option Nat
  is_selected : Option Bool
  deriving Repr, DecidableEq

/-- The provider agnostic payment context handed to an adapter. -/
structure PaymentContext where
  cart_id : Option String
  email : String
  amount : Int
  currency_code : String
  collected_data : PData
  deriving Repr, DecidableEq

/-- The response of an adapter createPayment call. -/
structure PaymentSessionResponse where
  session_data : PData
  collected_customer_data : Option PData
  deriving Repr, DecidableEq

/-- A registered payment provider adapter: the create payment capabilities
used by the embedded session creation methods. Adapter calls are external
and may fail; a failure propagates unchanged. -/
structure Adapter where
  createPayment : PaymentContext → Except MedusaError PaymentSessionResponse
  createPaymentNew : PaymentContext → Except MedusaError PaymentSessionResponse

/-- PaymentProviderService.retrieveProvider. The dependency injection
container is an awilix cradle, which raises on access to an unregistered
key; it is modelled as a partial lookup whose missing case is the raise.
The catch block converts any raised error into NotFound. The special id
system resolves the systemPaymentProviderService registration, any other
id resolves the pp_ prefixed registration. -/
def retrieveProvider (container : String → Option Adapter) (providerId : String) :
    Except MedusaError Adapter :=
  let key := if providerId = "system" then "systemPaymentProviderService"
             else "pp_" ++ providerId
  match container key with
  | some provider => Except.ok provider
  | none => Except.error ⟨MedusaErrorType.NOT_FOUND,
      "Could not find a payment provider with id: " ++ providerId⟩

/-- PaymentProviderService.saveSession: persisting a session with a non
null amount is forbidden while the order editing feature flag is disabled.
The created row mirrors toCreate in the source, which does not include the
amount field. -/
def saveSession (featureFlagOrderEditing : Bool) (providerId : String)
    (cartId : Option String) (amount : Option Int) (sessionData : PData)
    (isSelected : Option Bool) (status : PaymentSessionStatus) :
    Except MedusaError PaymentSession :=
  if amount.isSome ∧ featureFlagOrderEditing = false then
    Except.error ⟨MedusaErrorType.INVALID_ARGUMENT,
      "Unable to save the payment session with an amoutn. The feature flag order edit is not enabled."⟩
  else
    Except.ok ⟨"", cartId, providerId, status, sessionData, none, isSelected⟩

/-- A cart, reduced to the fields buildCreatePaymentContext reads on the
legacy path. -/
structure CartLite where
  id : String
  email : String
  total : Int
  currency_code : String
  customer_metadata : Option PData
  deriving Repr, DecidableEq

/-- PaymentProviderService.buildCreatePaymentContext on the legacy cart
path: amount from the cart total, currency from the region, collected data
from the customer metadata when present. -/
def buildCreatePaymentContext (cart : CartLite) : PaymentContext :=
  ⟨some cart.id, cart.email, cart.total, cart.currency_code,
    cart.customer_metadata.getD []⟩

/-- PaymentProviderService.createSession on the legacy string plus cart
path: resolves the provider, builds the context, invokes the adapter and
persists the returned session data with status PENDING and no amount. The
collected customer data merge into the external customer service is a side
effect outside the session row and is not modelled. -/
def createSession (container : String → Option Adapter)
    (featureFlagOrderEditing : Bool) (providerId : String) (cart : CartLite) :
    Except MedusaError PaymentSession :=
  match retrieveProvider container providerId with
  | Except.error e => Except.error e
  | Except.ok provider =>
    match provider.createPayment (buildCreatePaymentContext cart) with
    | Except.error e => Except.error e
    | Except.ok resp =>
      saveSession featureFlagOrderEditing providerId (some cart.id) none
        resp.session_data none PaymentSessionStatus.PENDING

/-- The session input of the new API, reduced to the fields the embedded
methods read. -/
structure PaymentSessionInputNew where
  provider_id : String
  amount : Int
  currency_code : String
  customer_id : Option String
  customer_metadata : Option PData
  deriving Repr, DecidableEq

/-- PaymentProviderService.createSessionNew: resolves the provider, invokes
the adapter with a context carrying the input amount, currency and the
collected customer metadata, and persists the returned session data with
status PENDING together with the input amount handed to saveSession. -/
def createSessionNew (container : String → Option Adapter)
    (featureFlagOrderEditing : Bool) (input : PaymentSessionInputNew) :
    Except MedusaError PaymentSession :=
  match retrieveProvider container input.provider_id with
  | Except.error e => Except.error e
  | Except.ok provider =>
    match provider.createPaymentNew
        ⟨none, "", input.amount, input.currency_code,
          input.customer_metadata.getD []⟩ with
    | Except.error e => Except.error e
    | Except.ok resp =>
      saveSession featureFlagOrderEditing input.provider_id none
        (some input.amount) resp.session_data none PaymentSessionStatus.PENDING

/-- The status and data pair returned by an adapter authorizePayment call. -/
structure AuthorizeResult where
  status : PaymentSessionStatus
  data : PData
  deriving Repr, DecidableEq

/-- retrieveSession with the catch to undefined used by authorizePayment:
lookup of a session row by id. -/
def retrieveSessionOpt (store : List PaymentSession) (sessionId : String) :
    Option PaymentSession :=
  store.find? (fun s => s.id = sessionId)

/-- Persisting a session row: replace the row with the same id, append when
new. -/
def saveSessionRow (store : List PaymentSession) (s : PaymentSession) :
    List PaymentSession :=
  if store.any (fun x => x.id = s.id) then
    store.map (fun x => if x.id = s.id then s else x)
  else
    store ++ [s]

/-- PaymentProviderService.authorizePayment: no op when the session no
longer exists; otherwise stores the adapter status and data on the session,
stamps payment_authorized_at at the current time exactly when the order
editing feature flag is enabled and the returned status is AUTHORIZED, and
persists the row. The adapter call is the external parameter
adapterAuthorize. -/
def authorizePayment (featureFlagOrderEditing : Bool)
    (adapterAuthorize : PaymentSession → PData → AuthorizeResult)
    (store : List PaymentSession) (sessionId : String) (context : PData)
    (now : Nat) : Option PaymentSession × List PaymentSession :=
  match retrieveSessionOpt store sessionId with
  | none => (none, store)
  | some session =>
    let res := adapterAuthorize session context
    let s1 := { session with data := res.data, status := res.status }
    let s2 :=
      if featureFlagOrderEditing ∧ res.status = PaymentSessionStatus.AUTHORIZED
      then { s1 with payment_authorized_at := some now }
      else s1
    (some s2, saveSessionRow store s2)

/-- C4: for a provider id that is not system and has no adapter registered
under the key pp_ followed by the id, createSession fails through
retrieveProvider with NotFound before invoking any adapter; the special id
system resolves the system payment provider adapter registration. -/
theorem createSession_unregistered_notFound (container : String → Option Adapter)
    (featureFlagOrderEditing : Bool) (providerId : String) (cart : CartLite) :
    (providerId ≠ "system" → container ("pp_" ++ providerId) = none →
      createSession container featureFlagOrderEditing providerId cart
        = Except.error ⟨MedusaErrorType.NOT_FOUND,
            "Could not find a payment provider with id: " ++ providerId⟩) ∧
    (∀ a, container "systemPaymentProviderService" = some a →
      retrieveProvider container "system" = Except.ok a) := by
  constructor
  · intro hs hm
    unfold createSession retrieveProvider
    simp [hs, hm]
  · intro a ha
    unfold retrieveProvider
    simp [ha]

/-- An empty provider registry. -/
def emptyContainer : String → Option Adapter := fun _ => none

/-- A trivial adapter standing in for the system payment provider. -/
def sysAdapter : Adapter :=
  ⟨fun _ => Except.ok ⟨[], none⟩, fun _ => Except.ok ⟨[], none⟩⟩

/-- A registry holding only the system payment provider. -/
def sysContainer : String → Option Adapter :=
  fun key => if key = "systemPaymentProviderService" then some sysAdapter else none

/-- A concrete cart for witnesses. -/
def cart0 : CartLite := ⟨"cart_1", "test@medusa.test", 1000, "usd", none⟩

/-- Witness for C4: an unregistered provider id fails with NotFound and the
system id resolves the system adapter. -/
theorem createSession_unregistered_notFound_witness :
    createSession emptyContainer true "foo" cart0
      = Except.error ⟨MedusaErrorType.NOT_FOUND,
          "Could not find a payment provider with id: " ++ "foo"⟩ ∧
    retrieveProvider sysContainer "system" = Except.ok sysAdapter := by
  constructor
  · exact (createSession_unregistered_notFound emptyContainer true "foo" cart0).1
      (by decide) rfl
  · exact (createSession_unregistered_notFound sysContainer true "foo" cart0).2
      sysAdapter rfl

/-- C5: for every session present in the store, authorizePayment persists
the adapter status and data on the session and stamps payment_authorized_at
with the current time exactly when the order editing feature flag is
enabled and the returned status is AUTHORIZED; otherwise the field keeps
its previous value. -/
theorem authorizePayment_stamps_authorized_at (featureFlagOrderEditing : Bool)
    (adapterAuthorize : PaymentSession → PData → AuthorizeResult)
    (store : List PaymentSession) (sessionId : String) (context : PData)
    (now : Nat) (session : PaymentSession)
    (hfind : retrieveSessionOpt store sessionId = some session) :
    ∃ saved,
      authorizePayment featureFlagOrderEditing adapterAuthorize store
          sessionId context now
        = (some saved, saveSessionRow store saved) ∧
      saved.status = (adapterAuthorize session context).status ∧
      saved.data = (adapterAuthorize session context).data ∧
      saved.payment_authorized_at =
        (if featureFlagOrderEditing ∧ (adapterAuthorize session context).status
            = PaymentSessionStatus.AUTHORIZED
         then some now else session.payment_authorized_at) := by
  unfold authorizePayment
  rw [hfind]
  by_cases hc : featureFlagOrderEditing
      ∧ (adapterAuthorize session context).status = PaymentSessionStatus.AUTHORIZED
  · refine ⟨_, rfl, ?_, ?_, ?_⟩ <;> simp [hc]
  · refine ⟨_, rfl, ?_, ?_, ?_⟩ <;> simp [hc]

/-- A concrete pending session for witnesses. -/
def session0 : PaymentSession :=
  ⟨"ps_1", some "cart_1", "stripe", PaymentSessionStatus.PENDING, [], none, none⟩

/-- A concrete adapter authorization outcome for witnesses. -/
def authAccept : PaymentSession → PData → AuthorizeResult :=
  fun _ _ => ⟨PaymentSessionStatus.AUTHORIZED, [("ok", "1")]⟩

/-- Witness for C5: with the flag enabled and an AUTHORIZED adapter result
the persisted session carries the stamp. -/
theorem authorizePayment_stamps_authorized_at_witness :
    ∃ saved,
      authorizePayment true authAccept [session0] "ps_1" [] 42
        = (some saved, saveSessionRow [session0] saved) ∧
      saved.status = PaymentSessionStatus.AUTHORIZED ∧
      saved.data = [("ok", "1")] ∧
      saved.payment_authorized_at = some 42 := by
  obtain ⟨saved, h1, h2, h3, h4⟩ :=
    authorizePayment_stamps_authorized_at true authAccept [session0] "ps_1" [] 42
      session0 rfl
  refine ⟨saved, h1, ?_, ?_, ?_⟩
  · simpa [authAccept] using h2
  · simpa [authAccept] using h3
  · simpa [authAccept] using h4

/-- C9: saving a session with a non null amount fails with InvalidArgument
while the order editing feature flag is disabled and no row is produced;
saving without an amount yields the same row for any flag value; hence
createSessionNew, which always hands its input amount to saveSession, can
never succeed with the flag disabled. -/
theorem saveSession_amount_requires_flag (providerId : String)
    (cartId : Option String) (sessionData : PData) (isSelected : Option Bool)
    (status : PaymentSessionStatus) :
    (∀ a : Int,
      saveSession false providerId cartId (some a) sessionData isSelected status
        = Except.error ⟨MedusaErrorType.INVALID_ARGUMENT,
            "Unable to save the payment session with an amoutn. The feature flag order edit is not enabled."⟩) ∧
    (∀ flag : Bool,
      saveSession flag providerId cartId none sessionData isSelected status
        = Except.ok ⟨"", cartId, providerId, status, sessionData, none, isSelected⟩) ∧
    (∀ (container : String → Option Adapter) (input : PaymentSessionInputNew)
        (s : PaymentSession),
      createSessionNew container false input ≠ Except.ok s) := by
  refine ⟨?_, ?_, ?_⟩
  · intro a
    simp [saveSession]
  · intro flag
    simp [saveSession]
  · intro container input s h
    unfold createSessionNew at h
    cases hr : retrieveProvider container input.provider_id with
    | error e =>
      rw [hr] at h
      exact absurd h (by simp)
    | ok provider =>
      rw [hr] at h
      dsimp only at h
      cases hp : provider.createPaymentNew
          ⟨none, "", input.amount, input.currency_code,
            input.customer_metadata.getD []⟩ with
      | error e =>
        rw [hp] at h
        exact absurd h (by simp)
      | ok resp =>
        rw [hp] at h
        simp [saveSession] at h

/-- Witness for C9 at concrete inputs: the amount bearing save fails with
the flag off, the amount free save is flag independent, and a concrete
createSessionNew call with the flag off does not succeed. -/
theorem saveSession_amount_requires_flag_witness :
    saveSession false "stripe" none (some 1000) [] none PaymentSessionStatus.PENDING
      = Except.error ⟨MedusaErrorType.INVALID_ARGUMENT,
          "Unable to save the payment session with an amoutn. The feature flag order edit is not enabled."⟩ ∧
    saveSession false "stripe" none none [] none PaymentSessionStatus.PENDING
      = Except.ok ⟨"", none, "stripe", PaymentSessionStatus.PENDING, [], none, none⟩ ∧
    createSessionNew sysContainer false ⟨"system", 500, "usd", none, none⟩
      ≠ Except.ok session0 := by
  refine ⟨?_, ?_, ?_⟩
  · exact (saveSession_amount_requires_flag "stripe" none [] none
      PaymentSessionStatus.PENDING).1 1000
  · exact (saveSession_amount_requires_flag "stripe" none [] none
      PaymentSessionStatus.PENDING).2.1 false
  · exact (saveSession_amount_requires_flag "stripe" none [] none
      PaymentSessionStatus.PENDING).2.2 sysContainer ⟨"system", 500, "usd", none, none⟩
      session0

/-- A Refund record: order linked for refundPayment, payment linked for
refundFromPayment. -/
structure Refund where
  order_id : Option String
  payment_id : Option String
  amount : Int
  reason : String
  note : Option String
  deriving Repr, DecidableEq

/-- Remaining balance of one payment: amount minus amount_refunded. -/
def remAmt (p : Payment) : Int := p.amount - p.amount_refunded

/-- The reduce of refundPayment computing the aggregate refundable balance:
only payments with a captured_at timestamp contribute their remaining
balance. -/
def refundableAmt (payments : List Payment) : Int :=
  payments.foldl
    (fun acc next =>
      if next.captured_at.isSome then acc + (next.amount - next.amount_refunded)
      else acc) 0

/-- The same reduce also assigns order_id on every element; its final value
is the order id of the last payment, undefined for an empty list. -/
def lastOrderId (payments : List Payment) : Option String :=
  payments.foldl (fun _ next => some next.order_id) none

/-- The find predicate of the refund while loop: positive remaining balance
and id not yet in the used list. -/
def refundTarget (used : List String) (p : Payment) : Bool :=
  decide (0 < remAmt p) && !(decide (p.id ∈ used))

/-- In place mutation of the object returned by find: rewrites the first
list element satisfying the predicate. -/
def updateFirst (q : Payment → Bool) (f : Payment → Payment) :
    List Payment → List Payment
  | [] => []
  | p :: ps => if q p then f p :: ps else p :: updateFirst q f ps

/-- One refunded payment: the provider refund result is stored as the new
data and amount_refunded grows by the refunded amount. rp stands for the
external provider refundPayment call. -/
def applyRefund (rp : Payment → Int → PData) (r : Int) (p : Payment) : Payment :=
  { p with data := rp p r, amount_refunded := p.amount_refunded + r }

/-- The while loop of refundPayment: refund the first usable payment by
min of its remaining balance and the running balance, push its id to used,
and continue while the balance stays positive. fuel bounds the recursion;
the caller passes the list length, which the termination argument below
shows is never exhausted. Returns the updated payments and the final
balance. -/
def drainLoop (rp : Payment → Int → PData) :
    Nat → List Payment → Int → List String → List Payment × Int
  | 0, payments, balance, _ => (payments, balance)
  | Nat.succ fuel, payments, balance, used =>
    match payments.find? (refundTarget used) with
    | none => (payments, balance)
    | some t =>
      if 0 < balance - min (remAmt t) balance then
        drainLoop rp fuel
          (updateFirst (refundTarget used)
            (applyRefund rp (min (remAmt t) balance)) payments)
          (balance - min (remAmt t) balance) (used ++ [t.id])
      else
        (updateFirst (refundTarget used)
          (applyRefund rp (min (remAmt t) balance)) payments,
         balance - min (remAmt t) balance)

/-- PaymentProviderService.refundPayment. The payments argument is the list
the method refetches by id from the repository. The NotAllowed guard runs
before any mutation, so on failure the transaction aborts with every
payment untouched and no Refund row created; on success the method saves
the drained payments and creates exactly one Refund row carrying the full
requested amount. -/
def refundPayment (rp : Payment → Int → PData) (payments : List Payment)
    (amount : Int) (reason : String) (note : Option String) :
    Except MedusaError (List Payment × Refund) :=
  if refundableAmt payments < amount then
    Except.error ⟨MedusaErrorType.NOT_ALLOWED,
      "Refund amount is greater that the refundable amount"⟩
  else
    Except.ok ((drainLoop rp payments.length payments amount []).1,
      ⟨lastOrderId payments, none, amount, reason, note⟩)

/-- The observable effect of one refundPayment call on the payment store:
a thrown error rolls the transaction back, leaving the payments unchanged
and creating no Refund. -/
def refundPaymentRun (rp : Payment → Int → PData) (payments : List Payment)
    (amount : Int) (reason : String) (note : Option String) :
    List Payment × Option Refund :=
  match refundPayment rp payments amount reason note with
  | Except.error _ => (payments, none)
  | Except.ok res => (res.1, some res.2)

/-- PaymentProviderService.refundFromPayment: single payment refund with
the same NotAllowed guard, linking the Refund to the payment. -/
def refundFromPayment (rp : Payment → Int → PData) (payment : Payment)
    (amount : Int) (reason : String) (note : Option String) :
    Except MedusaError (Payment × Refund) :=
  if payment.amount - payment.amount_refunded < amount then
    Except.error ⟨MedusaErrorType.NOT_ALLOWED,
      "Refund amount is greater that the refundable amount"⟩
  else
    Except.ok (applyRefund rp amount payment,
      ⟨none, some payment.id, amount, reason, note⟩)

@[simp] theorem applyRefund_fields_id (rp : Payment → Int → PData) (r : Int) (p : Payment) :
    (applyRefund rp r p).id = p.id := rfl

@[simp] theorem applyRefund_fields_order (rp : Payment → Int → PData) (r : Int) (p : Payment) :
    (applyRefund rp r p).order_id = p.order_id := rfl

@[simp] theorem applyRefund_fields_provider (rp : Payment → Int → PData) (r : Int) (p : Payment) :
    (applyRefund rp r p).provider_id = p.provider_id := rfl

@[simp] theorem applyRefund_fields_amount (rp : Payment → Int → PData) (r : Int) (p : Payment) :
    (applyRefund rp r p).amount = p.amount := rfl

@[simp] theorem applyRefund_fields_captured (rp : Payment → Int → PData) (r : Int) (p : Payment) :
    (applyRefund rp r p).captured_at = p.captured_at := rfl

@[simp] theorem applyRefund_fields_refunded (rp : Payment → Int → PData) (r : Int) (p : Payment) :
    (applyRefund rp r p).amount_refunded = p.amount_refunded + r := rfl

@[simp] theorem remAmt_applyRefund (rp : Payment → Int → PData) (r : Int) (p : Payment) :
    remAmt (applyRefund rp r p) = remAmt p - r := by
  simp only [remAmt, applyRefund]
  ring

/-- Total refunded across a list of payments. -/
def totalAR : List Payment → Int
  | [] => 0
  | p :: ps => p.amount_refunded + totalAR ps

/-- Remaining balance summed over captured payments: the recursive
counterpart of the refundableAmt fold. -/
def capturedRem : List Payment → Int
  | [] => 0
  | p :: ps => (if p.captured_at.isSome then remAmt p else 0) + capturedRem ps

/-- Positive remaining balance still reachable by the drain loop: payments
whose id is not used contribute the positive part of their remaining
balance. -/
def availRem (used : List String) : List Payment → Int
  | [] => 0
  | p :: ps => (if p.id ∈ used then 0 else max (remAmt p) 0) + availRem used ps

/-- Number of payments whose id is not yet used. -/
def unusedCount (used : List String) : List Payment → Nat
  | [] => 0
  | p :: ps => (if p.id ∈ used then 0 else 1) + unusedCount used ps

theorem refundableAmt_eq_capturedRem (payments : List Payment) :
    refundableAmt payments = capturedRem payments := by
  have gen : ∀ (ps : List Payment) (acc : Int),
      ps.foldl (fun acc next =>
        if next.captured_at.isSome then acc + (next.amount - next.amount_refunded)
        else acc) acc = acc + capturedRem ps := by
    intro ps
    induction ps with
    | nil =>
      intro acc
      simp [capturedRem]
    | cons p tl ih =>
      intro acc
      by_cases hc : p.captured_at.isSome
      · simp only [List.foldl_cons, hc, if_true, ih, capturedRem, remAmt]
        ring
      · simp [hc, ih, capturedRem]
  simpa [refundableAmt] using gen payments 0

theorem capturedRem_le_availRem (payments : List Payment) :
    capturedRem payments ≤ availRem [] payments := by
  induction payments with
  | nil =>
    simp [capturedRem, availRem]
  | cons p ps ih =>
    simp only [capturedRem, availRem]
    rw [if_neg (List.not_mem_nil p.id)]
    have h1 : (if p.captured_at.isSome then remAmt p else 0) ≤ max (remAmt p) 0 := by
      by_cases hc : p.captured_at.isSome
      · rw [if_pos hc]
        exact le_max_left _ _
      · rw [if_neg hc]
        exact le_max_right _ _
    exact add_le_add h1 ih

theorem refundTarget_iff (used : List String) (p : Payment) :
    refundTarget used p = true ↔ 0 < remAmt p ∧ p.id ∉ used := by
  unfold refundTarget
  simp [Bool.and_eq_true]

theorem totalAR_updateFirst (q : Payment → Bool) (rp : Payment → Int → PData) (r : Int) :
    ∀ (payments : List Payment) (t : Payment), payments.find? q = some t →
    totalAR (updateFirst q (applyRefund rp r) payments) = totalAR payments + r := by
  intro payments
  induction payments with
  | nil =>
    intro t ht
    simp at ht
  | cons p ps ih =>
    intro t ht
    by_cases hq : q p
    · have hupd : updateFirst q (applyRefund rp r) (p :: ps)
          = applyRefund rp r p :: ps := by
        simp [updateFirst, hq]
      rw [hupd]
      simp only [totalAR, applyRefund_fields_refunded]
      ring
    · rw [List.find?_cons_of_neg _ hq] at ht
      have hupd : updateFirst q (applyRefund rp r) (p :: ps)
          = p :: updateFirst q (applyRefund rp r) ps := by
        simp [updateFirst, hq]
      rw [hupd]
      simp only [totalAR, ih t ht]
      ring

theorem availRem_append_of_ne (used : List String) (x : String) :
    ∀ payments : List Payment, (∀ p ∈ payments, p.id ≠ x) →
    availRem (used ++ [x]) payments = availRem used payments := by
  intro payments
  induction payments with
  | nil =>
    intro _
    rfl
  | cons p ps ih =>
    intro h
    have hp : p.id ≠ x := h p (List.mem_cons_self p ps)
    have hmem : (p.id ∈ used ++ [x]) ↔ p.id ∈ used := by
      simp [List.mem_append, hp]
    simp only [availRem, ih (fun q hq => h q (List.mem_cons_of_mem p hq))]
    by_cases hu : p.id ∈ used
    · rw [if_pos (hmem.mpr hu), if_pos hu]
    · rw [if_neg (fun hh => hu (hmem.mp hh)), if_neg hu]

theorem availRem_updateFirst (rp : Payment → Int → PData) (r : Int) :
    ∀ (payments : List Payment) (used : List String) (t : Payment),
    payments.find? (refundTarget used) = some t →
    (payments.map Payment.id).Nodup →
    availRem (used ++ [t.id])
        (updateFirst (refundTarget used) (applyRefund rp r) payments)
      = availRem used payments - remAmt t := by
  intro payments
  induction payments with
  | nil =>
    intro used t ht _
    simp at ht
  | cons p ps ih =>
    intro used t ht hnd
    simp only [List.map_cons, List.nodup_cons] at hnd
    obtain ⟨hpid, hnd2⟩ := hnd
    by_cases hq : refundTarget used p
    · rw [List.find?_cons_of_pos _ hq] at ht
      obtain rfl : p = t := by injection ht
      have hupd : updateFirst (refundTarget used) (applyRefund rp r) (p :: ps)
          = applyRefund rp r p :: ps := by
        simp [updateFirst, hq]
      rw [refundTarget_iff] at hq
      obtain ⟨hpos, hnu⟩ := hq
      rw [hupd]
      simp only [availRem, applyRefund_fields_id]
      rw [if_pos (show p.id ∈ used ++ [p.id] by simp)]
      rw [availRem_append_of_ne used p.id ps
        (fun q hq2 heq => hpid (heq ▸ List.mem_map_of_mem Payment.id hq2))]
      rw [if_neg hnu]
      rw [max_eq_left (le_of_lt hpos)]
      ring
    · rw [List.find?_cons_of_neg _ hq] at ht
      have htm : t ∈ ps := List.mem_of_find?_eq_some ht
      have hpt : p.id ≠ t.id :=
        fun heq => hpid (heq ▸ List.mem_map_of_mem Payment.id htm)
      have hupd : updateFirst (refundTarget used) (applyRefund rp r) (p :: ps)
          = p :: updateFirst (refundTarget used) (applyRefund rp r) ps := by
        simp [updateFirst, hq]
      rw [hupd]
      simp only [availRem, ih used t ht hnd2]
      have hmem : (p.id ∈ used ++ [t.id]) ↔ p.id ∈ used := by
        simp [List.mem_append, hpt]
      by_cases hu : p.id ∈ used
      · rw [if_pos (hmem.mpr hu), if_pos hu]
        ring
      · rw [if_neg (fun hh => hu (hmem.mp hh)), if_neg hu]
        ring

theorem drainJ_updateFirst (rp : Payment → Int → PData) (r : Int) :
    ∀ (payments : List Payment) (used : List String) (t : Payment),
    payments.find? (refundTarget used) = some t →
    (payments.map Payment.id).Nodup →
    r = remAmt t →
    (∀ p ∈ payments, p.id ∈ used → remAmt p ≤ 0) →
    ∀ p ∈ updateFirst (refundTarget used) (applyRefund rp r) payments,
      p.id ∈ used ++ [t.id] → remAmt p ≤ 0 := by
  intro payments
  induction payments with
  | nil =>
    intro used t ht
    simp at ht
  | cons p ps ih =>
    intro used t ht hnd hr hJ
    simp only [List.map_cons, List.nodup_cons] at hnd
    obtain ⟨hpid, hnd2⟩ := hnd
    by_cases hq : refundTarget used p
    · rw [List.find?_cons_of_pos _ hq] at ht
      obtain rfl : p = t := by injection ht
      have hupd : updateFirst (refundTarget used) (applyRefund rp r) (p :: ps)
          = applyRefund rp r p :: ps := by
        simp [updateFirst, hq]
      rw [hupd]
      intro q hqmem hqin
      rcases List.mem_cons.mp hqmem with rfl | hq2
      · rw [remAmt_applyRefund, hr]
        omega
      · rcases List.mem_append.mp hqin with hin | hin1
        · exact hJ q (List.mem_cons_of_mem p hq2) hin
        · exfalso
          have hqp : q.id = p.id := by simpa using hin1
          exact hpid (hqp ▸ List.mem_map_of_mem Payment.id hq2)
    · rw [List.find?_cons_of_neg _ hq] at ht
      have htm : t ∈ ps := List.mem_of_find?_eq_some ht
      have hpt : p.id ≠ t.id :=
        fun heq => hpid (heq ▸ List.mem_map_of_mem Payment.id htm)
      have hupd : updateFirst (refundTarget used) (applyRefund rp r) (p :: ps)
          = p :: updateFirst (refundTarget used) (applyRefund rp r) ps := by
        simp [updateFirst, hq]
      rw [hupd]
      intro q hqmem hqin
      rcases List.mem_cons.mp hqmem with rfl | hq2
      · rcases List.mem_append.mp hqin with hin | hin1
        · exact hJ q (List.mem_cons_self q ps) hin
        · exact absurd (by simpa using hin1) hpt
      · exact ih used t ht hnd2 hr
          (fun z hz => hJ z (List.mem_cons_of_mem p hz)) q hq2 hqin

theorem unusedCount_append_le (used : List String) (x : String) :
    ∀ payments : List Payment,
    unusedCount (used ++ [x]) payments ≤ unusedCount used payments := by
  intro payments
  induction payments with
  | nil =>
    simp [unusedCount]
  | cons p ps ih =>
    simp only [unusedCount]
    have h1 : (if p.id ∈ used ++ [x] then (0 : Nat) else 1)
        ≤ (if p.id ∈ used then (0 : Nat) else 1) := by
      by_cases hu : p.id ∈ used
      · rw [if_pos hu, if_pos (List.mem_append.mpr (Or.inl hu))]
      · rw [if_neg hu]
        split
        · omega
        · omega
    omega

theorem unusedCount_updateFirst (rp : Payment → Int → PData) (r : Int) :
    ∀ (payments : List Payment) (used : List String) (t : Payment),
    payments.find? (refundTarget used) = some t →
    unusedCount (used ++ [t.id])
        (updateFirst (refundTarget used) (applyRefund rp r) payments)
      < unusedCount used payments := by
  intro payments
  induction payments with
  | nil =>
    intro used t ht
    simp at ht
  | cons p ps ih =>
    intro used t ht
    by_cases hq : refundTarget used p
    · rw [List.find?_cons_of_pos _ hq] at ht
      obtain rfl : p = t := by injection ht
      have hupd : updateFirst (refundTarget used) (applyRefund rp r) (p :: ps)
          = applyRefund rp r p :: ps := by
        simp [updateFirst, hq]
      rw [refundTarget_iff] at hq
      rw [hupd]
      simp only [unusedCount, applyRefund_fields_id]
      rw [if_pos (show p.id ∈ used ++ [p.id] by simp)]
      rw [if_neg hq.2]
      have := unusedCount_append_le used p.id ps
      omega
    · rw [List.find?_cons_of_neg _ hq] at ht
      have hupd : updateFirst (refundTarget used) (applyRefund rp r) (p :: ps)
          = p :: updateFirst (refundTarget used) (applyRefund rp r) ps := by
        simp [updateFirst, hq]
      rw [hupd]
      simp only [unusedCount]
      have h1 : (if p.id ∈ used ++ [t.id] then (0 : Nat) else 1)
          ≤ (if p.id ∈ used then (0 : Nat) else 1) := by
        by_cases hu : p.id ∈ used
        · rw [if_pos hu, if_pos (List.mem_append.mpr (Or.inl hu))]
        · rw [if_neg hu]
          split
          · omega
          · omega
      have h2 := ih used t ht
      omega

theorem map_id_updateFirst (q : Payment → Bool) (rp : Payment → Int → PData) (r : Int) :
    ∀ payments : List Payment,
    (updateFirst q (applyRefund rp r) payments).map Payment.id
      = payments.map Payment.id := by
  intro payments
  induction payments with
  | nil => rfl
  | cons p ps ih =>
    by_cases hq : q p
    · simp [updateFirst, hq]
    · simp [updateFirst, hq, ih]

theorem availRem_nonpos (used : List String) :
    ∀ payments : List Payment,
    (∀ p ∈ payments, p.id ∈ used ∨ remAmt p ≤ 0) →
    availRem used payments ≤ 0 := by
  intro payments
  induction payments with
  | nil =>
    intro _
    simp [availRem]
  | cons p ps ih =>
    intro h
    simp only [availRem]
    have htl := ih (fun q hq => h q (List.mem_cons_of_mem p hq))
    have hd : (if p.id ∈ used then (0 : Int) else max (remAmt p) 0) ≤ 0 := by
      by_cases hu : p.id ∈ used
      · rw [if_pos hu]
      · rw [if_neg hu]
        rcases h p (List.mem_cons_self p ps) with hin | hle
        · exact absurd hin hu
        · exact max_le hle le_rfl
    omega

theorem unusedCount_zero (used : List String) :
    ∀ payments : List Payment, unusedCount used payments = 0 →
    ∀ p ∈ payments, p.id ∈ used := by
  intro payments
  induction payments with
  | nil =>
    intro _ p hp
    simp at hp
  | cons p ps ih =>
    intro h q hq
    simp only [unusedCount] at h
    by_cases hu : p.id ∈ used
    · rw [if_pos hu] at h
      simp only [Nat.zero_add] at h
      rcases List.mem_cons.mp hq with rfl | hq2
      · exact hu
      · exact ih h q hq2
    · rw [if_neg hu] at h
      omega

theorem unusedCount_le_length (used : List String) :
    ∀ payments : List Payment, unusedCount used payments ≤ payments.length := by
  intro payments
  induction payments with
  | nil =>
    simp [unusedCount]
  | cons p ps ih =>
    simp only [unusedCount, List.length_cons]
    by_cases hu : p.id ∈ used
    · rw [if_pos hu]
      omega
    · rw [if_neg hu]
      omega

theorem drainLoop_totalAR (rp : Payment → Int → PData) :
    ∀ (fuel : Nat) (payments : List Payment) (balance : Int) (used : List String),
    totalAR (drainLoop rp fuel payments balance used).1
      = totalAR payments
        + (balance - (drainLoop rp fuel payments balance used).2) := by
  intro fuel
  induction fuel with
  | zero =>
    intro ps b u
    simp [drainLoop]
  | succ fuel ih =>
    intro ps b u
    unfold drainLoop
    cases ht : ps.find? (refundTarget u) with
    | none => simp
    | some t =>
      dsimp only
      by_cases hb : 0 < b - min (remAmt t) b
      · rw [if_pos hb]
        rw [ih]
        rw [totalAR_updateFirst (refundTarget u) rp (min (remAmt t) b) ps t ht]
        ring
      · rw [if_neg hb]
        simp only
        rw [totalAR_updateFirst (refundTarget u) rp (min (remAmt t) b) ps t ht]
        ring

theorem drainLoop_final_balance (rp : Payment → Int → PData) :
    ∀ (fuel : Nat) (payments : List Payment) (balance : Int) (used : List String),
    0 ≤ balance →
    balance ≤ availRem used payments →
    (∀ p ∈ payments, p.id ∈ used → remAmt p ≤ 0) →
    (payments.map Payment.id).Nodup →
    unusedCount used payments ≤ fuel →
    (drainLoop rp fuel payments balance used).2 = 0 := by
  intro fuel
  induction fuel with
  | zero =>
    intro ps b u hb havail hJ hnd hfuel
    have hzero : unusedCount u ps = 0 := Nat.le_zero.mp hfuel
    have hall : ∀ p ∈ ps, p.id ∈ u := unusedCount_zero u ps hzero
    have hle : availRem u ps ≤ 0 :=
      availRem_nonpos u ps (fun p hp => Or.inl (hall p hp))
    have hb0 : b = 0 := le_antisymm (le_trans havail hle) hb
    simp [drainLoop, hb0]
  | succ fuel ih =>
    intro ps b u hb havail hJ hnd hfuel
    unfold drainLoop
    cases ht : ps.find? (refundTarget u) with
    | none =>
      have hall : ∀ p ∈ ps, p.id ∈ u ∨ remAmt p ≤ 0 := by
        intro p hp
        have hnp := List.find?_eq_none.mp ht p hp
        by_cases hu : p.id ∈ u
        · exact Or.inl hu
        · right
          by_contra hcon
          push_neg at hcon
          exact hnp ((refundTarget_iff u p).mpr ⟨hcon, hu⟩)
      have hle : availRem u ps ≤ 0 := availRem_nonpos u ps hall
      have hb0 : b = 0 := le_antisymm (le_trans havail hle) hb
      simp [hb0]
    | some t =>
      dsimp only
      have hqt := List.find?_some ht
      rw [refundTarget_iff] at hqt
      obtain ⟨hpos, hnu⟩ := hqt
      by_cases hcont : 0 < b - min (remAmt t) b
      · rw [if_pos hcont]
        have hreq : min (remAmt t) b = remAmt t := by omega
        apply ih
        · omega
        · rw [availRem_updateFirst rp _ ps u t ht hnd, hreq]
          omega
        · exact drainJ_updateFirst rp _ ps u t ht hnd hreq hJ
        · rw [map_id_updateFirst]
          exact hnd
        · have hdec := unusedCount_updateFirst rp (min (remAmt t) b) ps u t ht
          omega
      · rw [if_neg hcont]
        simp only
        omega

/-- Relation between a payment before and after a refund step: identity,
order, provider, amount and capture timestamp are untouched, the refunded
amount never decreases, and when it changed it stays within the payment
amount. -/
def RefMono (p p2 : Payment) : Prop :=
  p2.id = p.id ∧ p2.order_id = p.order_id ∧ p2.provider_id = p.provider_id ∧
  p2.amount = p.amount ∧ p2.captured_at = p.captured_at ∧
  p.amount_refunded ≤ p2.amount_refunded ∧
  (p2.amount_refunded = p.amount_refunded ∨ p2.amount_refunded ≤ p.amount)

/-- Pointwise RefMono over two payment lists of equal length. -/
def PayMono : List Payment → List Payment → Prop := List.Forall₂ RefMono

theorem refMono_refl (p : Payment) : RefMono p p :=
  ⟨rfl, rfl, rfl, rfl, rfl, le_refl _, Or.inl rfl⟩

theorem refMono_trans {p q r : Payment} :
    RefMono p q → RefMono q r → RefMono p r := by
  rintro ⟨h1, h2, h3, h4, h5, h6, h7⟩ ⟨g1, g2, g3, g4, g5, g6, g7⟩
  refine ⟨g1.trans h1, g2.trans h2, g3.trans h3, g4.trans h4, g5.trans h5,
    le_trans h6 g6, ?_⟩
  rcases g7 with geq | gle
  · rw [geq]
    exact h7
  · right
    exact gle.trans_eq h4

theorem payMono_refl (payments : List Payment) : PayMono payments payments :=
  List.forall₂_same.mpr (fun p _ => refMono_refl p)

theorem payMono_trans : ∀ {a b c : List Payment},
    PayMono a b → PayMono b c → PayMono a c := by
  intro a b c h1
  induction h1 generalizing c with
  | nil =>
    intro h2
    cases h2
    exact List.Forall₂.nil
  | cons hab htl ih =>
    intro h2
    cases h2 with
    | cons hbc htl2 => exact List.Forall₂.cons (refMono_trans hab hbc) (ih htl2)

theorem refMono_applyRefund (rp : Payment → Int → PData) (r : Int) (t : Payment)
    (hr0 : 0 ≤ r) (hrrem : r ≤ remAmt t) :
    RefMono t (applyRefund rp r t) := by
  refine ⟨rfl, rfl, rfl, rfl, rfl, ?_, Or.inr ?_⟩
  · simp only [applyRefund_fields_refunded]
    omega
  · simp only [applyRefund_fields_refunded, applyRefund_fields_amount]
    unfold remAmt at hrrem
    omega

theorem payMono_updateFirst (q : Payment → Bool) (f : Payment → Payment) :
    ∀ (payments : List Payment) (t : Payment),
    payments.find? q = some t → RefMono t (f t) →
    PayMono payments (updateFirst q f payments) := by
  intro payments
  induction payments with
  | nil =>
    intro t ht
    simp at ht
  | cons p ps ih =>
    intro t ht hR
    by_cases hq : q p
    · rw [List.find?_cons_of_pos _ hq] at ht
      obtain rfl : p = t := by injection ht
      have hupd : updateFirst q f (p :: ps) = f p :: ps := by
        simp [updateFirst, hq]
      rw [hupd]
      exact List.Forall₂.cons hR (payMono_refl ps)
    · rw [List.find?_cons_of_neg _ hq] at ht
      have hupd : updateFirst q f (p :: ps) = p :: updateFirst q f ps := by
        simp [updateFirst, hq]
      rw [hupd]
      exact List.Forall₂.cons (refMono_refl p) (ih t ht hR)

theorem drainLoop_payMono (rp : Payment → Int → PData) :
    ∀ (fuel : Nat) (payments : List Payment) (balance : Int) (used : List String),
    0 ≤ balance →
    PayMono payments (drainLoop rp fuel payments balance used).1 := by
  intro fuel
  induction fuel with
  | zero =>
    intro ps b u _
    exact payMono_refl ps
  | succ fuel ih =>
    intro ps b u hb
    unfold drainLoop
    cases ht : ps.find? (refundTarget u) with
    | none => exact payMono_refl ps
    | some t =>
      dsimp only
      have hqt := List.find?_some ht
      rw [refundTarget_iff] at hqt
      obtain ⟨hpos, hnu⟩ := hqt
      have hr0 : 0 ≤ min (remAmt t) b := by omega
      have hstep : PayMono ps (updateFirst (refundTarget u)
          (applyRefund rp (min (remAmt t) b)) ps) :=
        payMono_updateFirst (refundTarget u)
          (applyRefund rp (min (remAmt t) b)) ps t ht
          (refMono_applyRefund rp _ t hr0 (min_le_left _ _))
      by_cases hcont : 0 < b - min (remAmt t) b
      · rw [if_pos hcont]
        exact payMono_trans hstep (ih _ _ _ (by omega))
      · rw [if_neg hcont]
        exact hstep

/-- C1: the NotAllowed guard of refundPayment: the call fails exactly when
the requested amount exceeds the aggregate refundable balance over captured
payments; the raised error is NotAllowed with the source message, and since
the guard precedes every mutation the failing call leaves every payment
unchanged and creates no Refund row, as refundPaymentRun makes explicit. -/
theorem refundPayment_notAllowed_iff (rp : Payment → Int → PData)
    (payments : List Payment) (amount : Int) (reason : String)
    (note : Option String) :
    (∀ e, refundPayment rp payments amount reason note = Except.error e →
      e = ⟨MedusaErrorType.NOT_ALLOWED,
        "Refund amount is greater that the refundable amount"⟩ ∧
      refundableAmt payments < amount) ∧
    (refundableAmt payments < amount →
      refundPayment rp payments amount reason note
        = Except.error ⟨MedusaErrorType.NOT_ALLOWED,
            "Refund amount is greater that the refundable amount"⟩ ∧
      refundPaymentRun rp payments amount reason note = (payments, none)) := by
  constructor
  · intro e he
    unfold refundPayment at he
    by_cases hl : refundableAmt payments < amount
    · rw [if_pos hl] at he
      refine ⟨?_, hl⟩
      injection he with h
      exact h.symm
    · rw [if_neg hl] at he
      exact absurd he (by simp)
  · intro hl
    constructor
    · unfold refundPayment
      rw [if_pos hl]
    · unfold refundPaymentRun refundPayment
      rw [if_pos hl]

/-- A provider refund call that keeps the payment data, matching the Stripe
adapter behaviour, used in concrete witnesses. -/
def rp0 : Payment → Int → PData := fun p _ => p.data

/-- A captured payment of 100 with nothing refunded yet. -/
def pay1 : Payment :=
  ⟨"pay_1", "order_1", "stripe", 100, 0, some "2022-01-01", []⟩

/-- A captured payment of 50 with nothing refunded yet. -/
def pay2 : Payment :=
  ⟨"pay_2", "order_1", "stripe", 50, 0, some "2022-01-02", []⟩

/-- Witness for C1: requesting 150 against a single captured payment of 100
is rejected with NotAllowed and the store is untouched. -/
theorem refundPayment_notAllowed_iff_witness :
    refundPayment rp0 [pay1] 150 "other" none
      = Except.error ⟨MedusaErrorType.NOT_ALLOWED,
          "Refund amount is greater that the refundable amount"⟩ ∧
    refundPaymentRun rp0 [pay1] 150 "other" none = ([pay1], none) :=
  (refundPayment_notAllowed_iff rp0 [pay1] 150 "other" none).2 (by decide)

/-- C3: a successful refundPayment creates exactly one Refund row carrying
the full requested amount, reason and note (the single row is the only one
the method builds), and the greedy drain over the given payments in their
given order raises the summed amount_refunded by exactly the requested
amount, however many payments it touches. Ids are pairwise distinct, as the
payments are repository rows fetched by primary key. -/
theorem refundPayment_success_drains_requested (rp : Payment → Int → PData)
    (payments : List Payment) (amount : Int) (reason : String)
    (note : Option String) (result : List Payment × Refund)
    (hnodup : (payments.map Payment.id).Nodup) (h0 : 0 ≤ amount)
    (hok : refundPayment rp payments amount reason note = Except.ok result) :
    result.2.amount = amount ∧
    totalAR result.1 = totalAR payments + amount ∧
    result.2.reason = reason ∧ result.2.note = note := by
  unfold refundPayment at hok
  by_cases hl : refundableAmt payments < amount
  · rw [if_pos hl] at hok
    exact absurd hok (by simp)
  · rw [if_neg hl] at hok
    injection hok with hok
    subst hok
    refine ⟨rfl, ?_, rfl, rfl⟩
    have havail : amount ≤ availRem [] payments := by
      have h1 := refundableAmt_eq_capturedRem payments
      have h2 := capturedRem_le_availRem payments
      omega
    have hfin : (drainLoop rp payments.length payments amount []).2 = 0 :=
      drainLoop_final_balance rp payments.length payments amount [] h0 havail
        (fun p hp hin => absurd hin (List.not_mem_nil _))
        hnodup (unusedCount_le_length [] payments)
    have hsum := drainLoop_totalAR rp payments.length payments amount []
    rw [hfin] at hsum
    simpa using hsum

/-- Witness for C3: refunding 120 across a captured 100 and a captured 50
drains 100 from the first and 20 from the second and creates one Refund of
120. -/
theorem refundPayment_success_drains_requested_witness :
    ∃ result : List Payment × Refund,
      refundPayment rp0 [pay1, pay2] 120 "other" none = Except.ok result ∧
      result.2.amount = 120 ∧
      totalAR result.1 = totalAR [pay1, pay2] + 120 := by
  refine ⟨⟨[⟨"pay_1", "order_1", "stripe", 100, 100, some "2022-01-01", []⟩,
      ⟨"pay_2", "order_1", "stripe", 50, 20, some "2022-01-02", []⟩],
      ⟨some "order_1", none, 120, "other", none⟩⟩, rfl, ?_, ?_⟩
  · exact (refundPayment_success_drains_requested rp0 [pay1, pay2] 120 "other"
      none _ (by decide) (by decide) rfl).1
  · exact (refundPayment_success_drains_requested rp0 [pay1, pay2] 120 "other"
      none _ (by decide) (by decide) rfl).2.1

/-- One call in a sequence: refundPayment over the whole store or
refundFromPayment on the payment at one index of the store. -/
inductive RefundOp where
  | refundAll (amount : Int) (reason : String) (note : Option String)
  | refundOne (idx : Nat) (amount : Int) (reason : String) (note : Option String)
  deriving Repr, DecidableEq

/-- The requested amount of a call. -/
def RefundOp.amountOf : RefundOp → Int
  | RefundOp.refundAll a _ _ => a
  | RefundOp.refundOne _ a _ _ => a

/-- The effect of one call on the payment store: a failed call aborts its
transaction and leaves the store unchanged; a successful call persists the
updated payments. -/
def applyRefundOp (rp : Payment → Int → PData) (payments : List Payment) :
    RefundOp → List Payment
  | RefundOp.refundAll a reason note =>
    match refundPayment rp payments a reason note with
    | Except.ok res => res.1
    | Except.error _ => payments
  | RefundOp.refundOne i a reason note =>
    match payments[i]? with
    | none => payments
    | some p =>
      match refundFromPayment rp p a reason note with
      | Except.ok res => payments.set i res.1
      | Except.error _ => payments

/-- The invariant: amount_refunded bounded by amount for every payment. -/
def InvAR (payments : List Payment) : Prop :=
  ∀ p ∈ payments, p.amount_refunded ≤ p.amount

theorem payMono_set :
    ∀ (payments : List Payment) (i : Nat) (p p2 : Payment),
    payments[i]? = some p → RefMono p p2 →
    PayMono payments (payments.set i p2) := by
  intro payments
  induction payments with
  | nil =>
    intro i p p2 h
    simp at h
  | cons q ps ih =>
    intro i p p2 h hR
    cases i with
    | zero =>
      rw [List.getElem?_cons_zero] at h
      injection h with h
      subst h
      rw [List.set_cons_zero]
      exact List.Forall₂.cons hR (payMono_refl ps)
    | succ n =>
      rw [List.getElem?_cons_succ] at h
      rw [List.set_cons_succ]
      exact List.Forall₂.cons (refMono_refl q) (ih n p p2 h hR)

theorem invAR_of_payMono : ∀ {a b : List Payment},
    PayMono a b → InvAR a → InvAR b := by
  intro a b h
  induction h with
  | nil =>
    intro _ p hp
    simp at hp
  | cons hR htl ih =>
    intro hInv p hp
    rcases List.mem_cons.mp hp with rfl | hm
    · obtain ⟨_, _, _, h4, _, h6, h7⟩ := hR
      rcases h7 with heq | hle
      · rw [heq, h4]
        exact hInv _ (List.mem_cons_self _ _)
      · rw [h4]
        exact hle
    · exact ih (fun z hz => hInv z (List.mem_cons_of_mem _ hz)) p hm

theorem payMono_applyRefundOp (rp : Payment → Int → PData)
    (payments : List Payment) (op : RefundOp) (h0 : 0 ≤ RefundOp.amountOf op) :
    PayMono payments (applyRefundOp rp payments op) := by
  cases op with
  | refundAll a reason note =>
    simp only [RefundOp.amountOf] at h0
    unfold applyRefundOp
    dsimp only
    cases hres : refundPayment rp payments a reason note with
    | error e => exact payMono_refl payments
    | ok res =>
      dsimp only
      unfold refundPayment at hres
      by_cases hl : refundableAmt payments < a
      · rw [if_pos hl] at hres
        exact absurd hres (by simp)
      · rw [if_neg hl] at hres
        injection hres with hres
        rw [← hres]
        exact drainLoop_payMono rp payments.length payments a [] h0
  | refundOne i a reason note =>
    simp only [RefundOp.amountOf] at h0
    unfold applyRefundOp
    dsimp only
    cases hget : payments[i]? with
    | none => exact payMono_refl payments
    | some p =>
      dsimp only
      cases hres : refundFromPayment rp p a reason note with
      | error e => exact payMono_refl payments
      | ok res =>
        dsimp only
        unfold refundFromPayment at hres
        by_cases hl : p.amount - p.amount_refunded < a
        · rw [if_pos hl] at hres
          exact absurd hres (by simp)
        · rw [if_neg hl] at hres
          injection hres with hres
          apply payMono_set payments i p res.1 hget
          rw [← hres]
          exact refMono_applyRefund rp a p h0 (by unfold remAmt; omega)

/-- C2: for every sequence of refundPayment and refundFromPayment calls
with non negative requested amounts (refund amounts are money amounts),
starting from a store in which amount_refunded is bounded by amount, the
bound still holds after the whole sequence, and the pointwise PayMono
relation between start and end shows that no call ever decreases any
amount_refunded while amounts and capture timestamps stay untouched;
failing calls roll back and change nothing. -/
theorem refund_ops_preserve_invariant (rp : Payment → Int → PData)
    (ops : List RefundOp) (payments : List Payment)
    (hamts : ∀ op ∈ ops, 0 ≤ RefundOp.amountOf op)
    (hInv : InvAR payments) :
    InvAR (ops.foldl (applyRefundOp rp) payments) ∧
    PayMono payments (ops.foldl (applyRefundOp rp) payments) := by
  induction ops generalizing payments with
  | nil => exact ⟨hInv, payMono_refl payments⟩
  | cons op rest ih =>
    have hop : 0 ≤ RefundOp.amountOf op := hamts op (List.mem_cons_self op rest)
    have hstep : PayMono payments (applyRefundOp rp payments op) :=
      payMono_applyRefundOp rp payments op hop
    have hInv2 : InvAR (applyRefundOp rp payments op) :=
      invAR_of_payMono hstep hInv
    obtain ⟨g1, g2⟩ := ih (applyRefundOp rp payments op)
      (fun o ho => hamts o (List.mem_cons_of_mem op ho)) hInv2
    rw [List.foldl_cons]
    exact ⟨g1, payMono_trans hstep g2⟩

/-- Witness for C2: a whole store refund of 30 followed by a single payment
refund of 10 on the second payment preserves the invariant and never
decreases any refunded amount. -/
theorem refund_ops_preserve_invariant_witness :
    InvAR ([RefundOp.refundAll 30 "other" none,
            RefundOp.refundOne 1 10 "other" none].foldl
      (applyRefundOp rp0) [pay1, pay2]) ∧
    PayMono [pay1, pay2]
      ([RefundOp.refundAll 30 "other" none,
        RefundOp.refundOne 1 10 "other" none].foldl
        (applyRefundOp rp0) [pay1, pay2]) := by
  apply refund_ops_preserve_invariant
  · intro op hop
    rcases List.mem_cons.mp hop with rfl | hop2
    · decide
    · rcases List.mem_cons.mp hop2 with rfl | hop3
      · decide
      · exact absurd hop3 (List.not_mem_nil op)
  · intro p hp
    rcases List.mem_cons.mp hp with rfl | hp2
    · decide
    · rcases List.mem_cons.mp hp2 with rfl | hp3
      · decide
      · exact absurd hp3 (List.not_mem_nil p)
